import Mathlib

/-!
Verification of the bib-enrich metadata-reconciliation pipeline.

Shallow embedding of `src/bib_enrich_mcp/{bib_parser,scrapers,server}.py`.
Python `str | None` values become `Option String`; Python dicts become
insertion-ordered association lists; floating-point confidence constants
become exact rationals (only compared, never computed with); the external
network layer is an oracle parameter; the external `bibtexparser` library
(not part of this repository) is modelled from the spec where a claim
needs it, marked `Modelled from the spec:` at the definition.
-/

/-- `BibEntry` dataclass from `bib_parser.py`. -/
structure BibEntry where
  entry_type : String
  cite_key : String
  title : String
  authors : Option (List String) := none
  year : Option String := none
  venue : Option String := none
  doi : Option String := none
  arxiv_id : Option String := none
  url : Option String := none
  abstract : Option String := none
  booktitle : Option String := none
  journal : Option String := none
  volume : Option String := none
  pages : Option String := none
  publisher : Option String := none
  raw_fields : List (String × String) := []
deriving Repr, DecidableEq

/-- `MetadataResult` dataclass from `scrapers.py`; `confidence : float`
is embedded as an exact rational (the program only ever compares the
three literals 0.9, 0.85, 0.8, which are compared identically by IEEE
doubles and by ℚ). -/
structure MetadataResult where
  title : String
  authors : Option (List String) := none
  year : Option String := none
  venue : Option String := none
  doi : Option String := none
  arxiv_id : Option String := none
  booktitle : Option String := none
  journal : Option String := none
  volume : Option String := none
  pages : Option String := none
  publisher : Option String := none
  source : String := ""
  confidence : ℚ := 0
deriving Repr, DecidableEq

/-- Python `candidate or original` on `str | None` values: the candidate
wins unless it is `None` or the empty string (both falsy). -/
def pyOrStr (c : Option String) (e : Option String) : Option String :=
  match c with
  | none => e
  | some s => if s = "" then e else some s

/-- Python `candidate or original` on `list[str] | None` values: the
candidate wins unless it is `None` or the empty list (both falsy). -/
def pyOrList (c : Option (List String)) (e : Option (List String)) :
    Option (List String) :=
  match c with
  | none => e
  | some l => if l = [] then e else some l

/-- Python `candidate or original` on plain `str` values. -/
def pyOrReq (c : String) (e : String) : String :=
  if c = "" then e else c

/-- `_merge_metadata` from `server.py` (lines 16–35): builds a fresh
`BibEntry`, the input is never mutated. -/
def merge_metadata (entry : BibEntry) (result : MetadataResult) : BibEntry :=
  { entry_type := entry.entry_type
    cite_key := entry.cite_key
    title := pyOrReq result.title entry.title
    authors := pyOrList result.authors entry.authors
    year := pyOrStr result.year entry.year
    venue := pyOrStr result.venue entry.venue
    doi := pyOrStr result.doi entry.doi
    arxiv_id := pyOrStr result.arxiv_id entry.arxiv_id
    url := entry.url
    abstract := entry.abstract
    booktitle := pyOrStr result.booktitle entry.booktitle
    journal := pyOrStr result.journal entry.journal
    volume := pyOrStr result.volume entry.volume
    pages := pyOrStr result.pages entry.pages
    publisher := pyOrStr result.publisher entry.publisher
    raw_fields := entry.raw_fields }

/-- Whether an optional candidate string field is "present and non-empty"
(Python truthiness of a `str | None`). -/
def candWinsStr : Option String → Bool
  | none => false
  | some s => s ≠ ""

/-- Whether an optional candidate author list is "present and non-empty". -/
def candWinsList : Option (List String) → Bool
  | none => false
  | some l => l ≠ []

/-- C1: merging takes each mergeable field from the candidate when it is
present and non-empty, otherwise keeps the record's value; url, abstract
and the raw-field mapping always come from the record. The embedding is a
pure function returning a fresh record, so the input record is unchanged. -/
theorem merge_metadata_fields (e : BibEntry) (r : MetadataResult) :
    (merge_metadata e r).title = (if r.title ≠ "" then r.title else e.title) ∧
    (merge_metadata e r).authors =
      (if candWinsList r.authors then r.authors else e.authors) ∧
    (merge_metadata e r).year = (if candWinsStr r.year then r.year else e.year) ∧
    (merge_metadata e r).venue = (if candWinsStr r.venue then r.venue else e.venue) ∧
    (merge_metadata e r).doi = (if candWinsStr r.doi then r.doi else e.doi) ∧
    (merge_metadata e r).arxiv_id =
      (if candWinsStr r.arxiv_id then r.arxiv_id else e.arxiv_id) ∧
    (merge_metadata e r).journal =
      (if candWinsStr r.journal then r.journal else e.journal) ∧
    (merge_metadata e r).volume =
      (if candWinsStr r.volume then r.volume else e.volume) ∧
    (merge_metadata e r).pages =
      (if candWinsStr r.pages then r.pages else e.pages) ∧
    (merge_metadata e r).publisher =
      (if candWinsStr r.publisher then r.publisher else e.publisher) ∧
    (merge_metadata e r).url = e.url ∧
    (merge_metadata e r).abstract = e.abstract ∧
    (merge_metadata e r).raw_fields = e.raw_fields := by
  refine ⟨?_, ?_, ?_, ?_, ?_, ?_, ?_, ?_, ?_, ?_, rfl, rfl, rfl⟩
  · by_cases h : r.title = "" <;> simp [merge_metadata, pyOrReq, h]
  · cases h : r.authors with
    | none => simp [merge_metadata, pyOrList, candWinsList, h]
    | some l =>
      by_cases hl : l = [] <;> simp [merge_metadata, pyOrList, candWinsList, h, hl]
  · cases h : r.year with
    | none => simp [merge_metadata, pyOrStr, candWinsStr, h]
    | some s => by_cases hs : s = "" <;> simp [merge_metadata, pyOrStr, candWinsStr, h, hs]
  · cases h : r.venue with
    | none => simp [merge_metadata, pyOrStr, candWinsStr, h]
    | some s => by_cases hs : s = "" <;> simp [merge_metadata, pyOrStr, candWinsStr, h, hs]
  · cases h : r.doi with
    | none => simp [merge_metadata, pyOrStr, candWinsStr, h]
    | some s => by_cases hs : s = "" <;> simp [merge_metadata, pyOrStr, candWinsStr, h, hs]
  · cases h : r.arxiv_id with
    | none => simp [merge_metadata, pyOrStr, candWinsStr, h]
    | some s => by_cases hs : s = "" <;> simp [merge_metadata, pyOrStr, candWinsStr, h, hs]
  · cases h : r.journal with
    | none => simp [merge_metadata, pyOrStr, candWinsStr, h]
    | some s => by_cases hs : s = "" <;> simp [merge_metadata, pyOrStr, candWinsStr, h, hs]
  · cases h : r.volume with
    | none => simp [merge_metadata, pyOrStr, candWinsStr, h]
    | some s => by_cases hs : s = "" <;> simp [merge_metadata, pyOrStr, candWinsStr, h, hs]
  · cases h : r.pages with
    | none => simp [merge_metadata, pyOrStr, candWinsStr, h]
    | some s => by_cases hs : s = "" <;> simp [merge_metadata, pyOrStr, candWinsStr, h, hs]
  · cases h : r.publisher with
    | none => simp [merge_metadata, pyOrStr, candWinsStr, h]
    | some s => by_cases hs : s = "" <;> simp [merge_metadata, pyOrStr, candWinsStr, h, hs]

/-- C10: the merge step preserves the record's entry kind and citation key
whatever the candidate carries. -/
theorem merge_preserves_identity (e : BibEntry) (r : MetadataResult) :
    (merge_metadata e r).entry_type = e.entry_type ∧
    (merge_metadata e r).cite_key = e.cite_key :=
  ⟨rfl, rfl⟩

/-- One comparison step of CPython's `max(results, key=lambda r: r.confidence)`
(server.py lines 54 and 86): the running best is replaced only when the new
element's key is strictly greater, so ties keep the earlier element. -/
def maxStep (best x : MetadataResult) : MetadataResult :=
  if best.confidence < x.confidence then x else best

/-- `selectBest`: the `if not results: ...` guard followed by
`max(results, key=lambda r: r.confidence)` in `enrich_bib_entry` /
`enrich_bib_file` (server.py lines 51–54 and 85–86). -/
def selectBest : List MetadataResult → Option MetadataResult
  | [] => none
  | h :: t => some (t.foldl maxStep h)

lemma confidence_le_maxStep_left (h a : MetadataResult) :
    h.confidence ≤ (maxStep h a).confidence := by
  unfold maxStep
  split
  · exact le_of_lt (by assumption)
  · exact le_refl _

lemma confidence_le_maxStep_right (h a : MetadataResult) :
    a.confidence ≤ (maxStep h a).confidence := by
  unfold maxStep
  split
  · exact le_refl _
  · exact le_of_not_lt (by assumption)

lemma foldl_maxStep_ge (t : List MetadataResult) (h : MetadataResult) :
    ∀ x ∈ h :: t, x.confidence ≤ (t.foldl maxStep h).confidence := by
  induction t generalizing h with
  | nil =>
    intro x hx
    simp only [List.mem_singleton] at hx
    rw [hx]
    exact le_refl _
  | cons a t ih =>
    intro x hx
    have hres : (a :: t).foldl maxStep h = t.foldl maxStep (maxStep h a) := rfl
    rw [hres]
    rcases List.mem_cons.mp hx with hxh | hx2
    · rw [hxh]
      exact le_trans (confidence_le_maxStep_left h a)
        (ih (maxStep h a) _ (List.mem_cons_self _ _))
    · rcases List.mem_cons.mp hx2 with hxa | hx3
      · rw [hxa]
        exact le_trans (confidence_le_maxStep_right h a)
          (ih (maxStep h a) _ (List.mem_cons_self _ _))
      · exact ih (maxStep h a) x (List.mem_cons_of_mem _ hx3)

lemma foldl_maxStep_first (t : List MetadataResult) (h : MetadataResult) :
    ∃ l₁ l₂, h :: t = l₁ ++ (t.foldl maxStep h) :: l₂ ∧
      ∀ x ∈ l₁, x.confidence < (t.foldl maxStep h).confidence := by
  induction t generalizing h with
  | nil => exact ⟨[], [], rfl, by simp⟩
  | cons a t ih =>
    have hres : (a :: t).foldl maxStep h = t.foldl maxStep (maxStep h a) := rfl
    by_cases hlt : h.confidence < a.confidence
    · have hm : maxStep h a = a := by simp [maxStep, hlt]
      obtain ⟨l₁, l₂, hdec, hl₁⟩ := ih a
      refine ⟨h :: l₁, l₂, ?_, ?_⟩
      · rw [hres, hm, List.cons_append, ← hdec]
      · intro x hx
        rw [hres, hm]
        rcases List.mem_cons.mp hx with hxh | hxl
        · rw [hxh]
          exact lt_of_lt_of_le hlt (foldl_maxStep_ge t a a (List.mem_cons_self _ _))
        · exact hl₁ x hxl
    · have hm : maxStep h a = h := by simp [maxStep, hlt]
      obtain ⟨l₁, l₂, hdec, hl₁⟩ := ih h
      cases l₁ with
      | nil =>
        rw [List.nil_append] at hdec
        injection hdec with hh ht
        refine ⟨[], a :: t, ?_, by simp⟩
        rw [List.nil_append, hres, hm, ← hh]
      | cons b l₁ =>
        rw [List.cons_append] at hdec
        injection hdec with hb ht
        refine ⟨h :: a :: l₁, l₂, ?_, ?_⟩
        · rw [hres, hm, List.cons_append, List.cons_append]
          exact congrArg (fun s => h :: a :: s) ht
        · intro x hx
          rw [hres, hm]
          rcases List.mem_cons.mp hx with hxh | hx2
          · rw [hxh]
            have hhb := hl₁ b (List.mem_cons_self b l₁)
            rw [← hb] at hhb
            exact hhb
          · rcases List.mem_cons.mp hx2 with hxa | hx3
            · rw [hxa]
              calc a.confidence ≤ h.confidence := le_of_not_lt hlt
                _ = b.confidence := by rw [hb]
                _ < _ := hl₁ b (List.mem_cons_self _ _)
            · exact hl₁ x (List.mem_cons_of_mem _ hx3)

/-- A candidate with the arXiv provider's confidence 0.9. -/
def cand09 : MetadataResult :=
  { title := "arxiv candidate", source := "arxiv", confidence := 9/10 }

/-- A candidate with the DBLP provider's confidence 0.85. -/
def cand085 : MetadataResult :=
  { title := "dblp candidate", source := "dblp", confidence := 17/20 }

/-- A candidate with the CrossRef provider's confidence 0.8. -/
def cand08 : MetadataResult :=
  { title := "crossref candidate", source := "crossref", confidence := 4/5 }

/-- C2: `selectBest` of the empty sequence is nothing; of any non-empty
sequence it is the first candidate of maximal confidence (everything before
it is strictly smaller, nothing anywhere is larger); and on any ordering of
the 0.9/0.85/0.8 candidates it picks the 0.9 one. -/
theorem selectBest_spec :
    selectBest [] = none ∧
    (∀ l : List MetadataResult, l ≠ [] →
      ∃ c l₁ l₂, selectBest l = some c ∧ l = l₁ ++ c :: l₂ ∧
        (∀ x ∈ l, x.confidence ≤ c.confidence) ∧
        ∀ x ∈ l₁, x.confidence < c.confidence) ∧
    ∀ l : List MetadataResult, l.Perm [cand09, cand085, cand08] →
      selectBest l = some cand09 := by
  have main : ∀ l : List MetadataResult, l ≠ [] →
      ∃ c l₁ l₂, selectBest l = some c ∧ l = l₁ ++ c :: l₂ ∧
        (∀ x ∈ l, x.confidence ≤ c.confidence) ∧
        ∀ x ∈ l₁, x.confidence < c.confidence := by
    intro l hne
    cases l with
    | nil => exact absurd rfl hne
    | cons h t =>
      obtain ⟨l₁, l₂, hdec, hl₁⟩ := foldl_maxStep_first t h
      exact ⟨t.foldl maxStep h, l₁, l₂, rfl, hdec, foldl_maxStep_ge t h, hl₁⟩
  refine ⟨rfl, main, ?_⟩
  intro l hperm
  have hne : l ≠ [] := by
    intro hnil
    subst hnil
    have hlen := hperm.length_eq
    simp at hlen
  obtain ⟨c, l₁, l₂, hsel, hdec, hmax, _⟩ := main l hne
  have hc_mem : c ∈ l := by
    rw [hdec]
    exact List.mem_append_right _ (List.mem_cons_self _ _)
  have h9 : cand09 ∈ l := hperm.mem_iff.mpr (by simp)
  have hge : cand09.confidence ≤ c.confidence := hmax _ h9
  have hc3 : c ∈ [cand09, cand085, cand08] := hperm.mem_iff.mp hc_mem
  simp only [List.mem_cons, List.not_mem_nil, or_false] at hc3
  rcases hc3 with rfl | rfl | rfl
  · exact hsel
  · exfalso
    simp only [cand09, cand085] at hge
    norm_num at hge
  · exfalso
    simp only [cand09, cand08] at hge
    norm_num at hge

/-- Witness for C2: on the concrete ordering 0.85, 0.9, 0.8 the 0.9
candidate is selected. -/
theorem selectBest_spec_witness :
    selectBest [cand085, cand09, cand08] = some cand09 :=
  selectBest_spec.2.2 [cand085, cand09, cand08]
    (List.Perm.swap cand09 cand085 [cand08])

/-- Python truthiness of a `str | None` argument (`if arxiv_id:` etc.):
only a present, non-empty string counts. -/
def optTruthy : Option String → Bool
  | none => false
  | some s => s ≠ ""

/-- The five kinds of provider query `scrape_metadata` can issue, with the
string they are issued for. -/
inductive Query where
  | arxivById (id : String)
  | crossrefByDoi (d : String)
  | arxivByTitle (t : String)
  | dblpByTitle (t : String)
  | crossrefByTitle (t : String)
deriving Repr, DecidableEq

/-- `results.append(result)` guarded by `if result:`. -/
def appendIfSome (l : List MetadataResult) : Option MetadataResult → List MetadataResult
  | some r => l ++ [r]
  | none => l

/-- `scrape_metadata` from `scrapers.py` (lines 248–283). The network is an
oracle mapping each query to the candidate (if any) the corresponding
provider call returns; the sequential `if` blocks and appends are
transcribed directly. -/
def scrape_metadata (oracle : Query → Option MetadataResult)
    (title arxiv_id doi : Option String) : List MetadataResult :=
  let r0 : List MetadataResult := []
  let r1 := if optTruthy arxiv_id then
      appendIfSome r0 (oracle (Query.arxivById (arxiv_id.getD "")))
    else r0
  let r2 := if optTruthy doi then
      appendIfSome r1 (oracle (Query.crossrefByDoi (doi.getD "")))
    else r1
  if optTruthy title then
    let t := title.getD ""
    appendIfSome
      (appendIfSome
        (appendIfSome r2 (oracle (Query.arxivByTitle t)))
        (oracle (Query.dblpByTitle t)))
      (oracle (Query.crossrefByTitle t))
  else r2

/-- The fixed query order of the spec's §4.3 policy: arXiv-by-id when an
arXiv id is given, CrossRef-by-DOI when a DOI is given, then the three
title lookups (arXiv, DBLP, CrossRef) when a title is given. -/
def attemptedQueries (title arxiv_id doi : Option String) : List Query :=
  (if optTruthy arxiv_id then [Query.arxivById (arxiv_id.getD "")] else []) ++
  (if optTruthy doi then [Query.crossrefByDoi (doi.getD "")] else []) ++
  (if optTruthy title then
    [Query.arxivByTitle (title.getD ""), Query.dblpByTitle (title.getD ""),
     Query.crossrefByTitle (title.getD "")]
  else [])

lemma appendIfSome_eq_toList (l : List MetadataResult) (o : Option MetadataResult) :
    appendIfSome l o = l ++ o.toList := by
  cases o <;> simp [appendIfSome]

/-- C3: whatever the oracle answers, `scrape_metadata` gathers exactly the
successes of the attempted queries, in the fixed attempt order — every
applicable query is consulted independently of earlier successes, and the
result order is the query order. -/
theorem scrape_metadata_query_order (oracle : Query → Option MetadataResult)
    (title arxiv_id doi : Option String) :
    scrape_metadata oracle title arxiv_id doi =
      (attemptedQueries title arxiv_id doi).filterMap (fun q => oracle q) := by
  have hfm : ∀ (f : Query → Option MetadataResult) (q : Query) (l : List Query),
      List.filterMap f (q :: l) = (f q).toList ++ List.filterMap f l := by
    intro f q l
    cases h : f q <;> simp [List.filterMap_cons, h]
  unfold scrape_metadata attemptedQueries
  by_cases ha : optTruthy arxiv_id <;> by_cases hd : optTruthy doi <;>
    by_cases ht : optTruthy title <;>
    simp [ha, hd, ht, appendIfSome_eq_toList, List.filterMap_append, hfm,
      List.append_assoc]

/-- A `bibtexparser` entry dict: an insertion-ordered string→string
mapping (Python `dict` semantics, keys unique). -/
abbrev PyEntry := List (String × String)

/-- Python `d.get(k)` on a string dict. -/
def pyGet (d : PyEntry) (k : String) : Option String :=
  (d.find? (fun p => p.1 == k)).map Prod.snd

/-- Python `d.get(k, v)` on a string dict. -/
def pyGetD (d : PyEntry) (k v : String) : String :=
  (pyGet d k).getD v

/-- Python `k in d` on a string dict. -/
def pyMem (d : PyEntry) (k : String) : Bool :=
  (pyGet d k).isSome

/-- Python `str.strip()`: drop whitespace from both ends. Implemented
structurally over the character list so that it evaluates by `decide`. -/
def pyStrip (s : String) : String :=
  ⟨((s.data.dropWhile Char.isWhitespace).reverse.dropWhile Char.isWhitespace).reverse⟩

/-- The author delimiter " and " as a character list. -/
def sepAnd : List Char := [' ', 'a', 'n', 'd', ' ']

/-- Python `s.split(" and ")` worker: scan left to right, cut at each
non-overlapping occurrence of the separator. The fuel is the input length,
so the zero-fuel fallback is never reached; structural recursion on the
fuel keeps the function kernel-reducible. -/
def pySplitAndAux : Nat → List Char → List Char → List (List Char)
  | _, [], acc => [acc.reverse]
  | 0, rest, acc => [acc.reverse ++ rest]
  | fuel + 1, c :: cs, acc =>
    if sepAnd.isPrefixOf (c :: cs) then
      acc.reverse :: pySplitAndAux fuel (cs.drop 4) []
    else
      pySplitAndAux fuel cs (c :: acc)

/-- Python `s.split(" and ")` (non-empty separator): in particular
`"".split(" and ") = [""]`, and the result is never the empty list. -/
def pySplitAnd (s : String) : List String :=
  (pySplitAndAux s.data.length s.data []).map (fun l => ⟨l⟩)

/-- `_parse_authors` from bib_parser.py (lines 34–39): `None` or the empty
string (both falsy) yield no author list; otherwise the string is split on
the exact delimiter " and " and each part is stripped, returning `None`
for an empty list (the final `authors if authors else None`). -/
def parse_authors : Option String → Option (List String)
  | none => none
  | some s =>
    if s = "" then none
    else
      let authors := (pySplitAnd s).map pyStrip
      if authors = [] then none else some authors

/-- `_extract_arxiv_id` from bib_parser.py (lines 42–48): `eprint` first,
then `arxiv`, else nothing. -/
def extract_arxiv_id (entry : PyEntry) : Option String :=
  if pyMem entry "eprint" then pyGet entry "eprint"
  else if pyMem entry "arxiv" then pyGet entry "arxiv"
  else none

/-- The field names `_dict_to_bib_entry` excludes from `raw_fields`
(bib_parser.py lines 53–74). -/
def reservedKeys : List String :=
  ["ENTRYTYPE", "ID", "title", "author", "year", "doi", "url", "abstract",
   "booktitle", "journal", "volume", "pages", "publisher", "eprint", "arxiv"]

/-- `_dict_to_bib_entry` from bib_parser.py (lines 51–92). `venue` is not
among the constructor arguments in the source, so it takes the dataclass
default `None`. -/
def dict_to_bib_entry (entry : PyEntry) : BibEntry :=
  { entry_type := pyGetD entry "ENTRYTYPE" "misc"
    cite_key := pyGetD entry "ID" ""
    title := pyGetD entry "title" ""
    authors := parse_authors (pyGet entry "author")
    year := pyGet entry "year"
    venue := none
    doi := pyGet entry "doi"
    arxiv_id := extract_arxiv_id entry
    url := pyGet entry "url"
    abstract := pyGet entry "abstract"
    booktitle := pyGet entry "booktitle"
    journal := pyGet entry "journal"
    volume := pyGet entry "volume"
    pages := pyGet entry "pages"
    publisher := pyGet entry "publisher"
    raw_fields := entry.filter (fun p => !(reservedKeys.contains p.1)) }

/-- `parse_bib_string` from bib_parser.py (lines 95–104). Modelled from the
spec: the external `bibtexparser.loads` call (third-party library, not in
this repository) is abstracted as the parameter `loads`, giving the entry
dicts of the parsed database. -/
def parse_bib_string (loads : String → List PyEntry) (bib_string : String) :
    List BibEntry :=
  if pyStrip bib_string = "" then []
  else (loads bib_string).map dict_to_bib_entry

/-- C6: parsing blank/whitespace-only text yields the empty sequence (not
an error); parsing non-blank text yields exactly one record per source
entry, with citation keys equal to the source entries' `ID` fields in
order. -/
theorem parse_bib_string_spec (loads : String → List PyEntry) (s : String) :
    (pyStrip s = "" → parse_bib_string loads s = []) ∧
    (pyStrip s ≠ "" →
      (parse_bib_string loads s).length = (loads s).length ∧
      (parse_bib_string loads s).map (fun e => e.cite_key) =
        (loads s).map (fun d => pyGetD d "ID" "")) := by
  constructor
  · intro h
    simp [parse_bib_string, h]
  · intro h
    refine ⟨by simp [parse_bib_string, h], ?_⟩
    simp only [parse_bib_string, if_neg h, List.map_map]
    rfl

/-- The entry dict of `@misc{a, title={X}, eprint={2401.00001}}`. -/
def sampleDict : PyEntry :=
  [("ENTRYTYPE", "misc"), ("ID", "a"), ("title", "X"), ("eprint", "2401.00001")]

/-- Witness for C6 at concrete inputs: blank text parses to nothing, and a
non-blank text whose stored collection holds the one entry `sampleDict`
parses to one record with citation key "a". -/
theorem parse_bib_string_spec_witness :
    parse_bib_string (fun _ => [sampleDict]) "   " = [] ∧
    (parse_bib_string (fun _ => [sampleDict]) "@misc").map (fun e => e.cite_key) =
      ["a"] := by
  constructor
  · exact (parse_bib_string_spec (fun _ => [sampleDict]) "   ").1 (by decide)
  · have h := (parse_bib_string_spec (fun _ => [sampleDict]) "@misc").2 (by decide)
    rw [h.2]
    rfl

/-- C7: the parsed arXiv identifier honors `eprint` first, then `arxiv`,
and at most one of them; neither field name reaches `raw_fields`; and the
dict of `@misc{a, title={X}, eprint={2401.00001}}` parses to a record with
`arxiv_id = "2401.00001"` and no raw fields. -/
theorem arxiv_id_extraction_spec (entry : PyEntry) :
    (pyMem entry "eprint" = true →
      (dict_to_bib_entry entry).arxiv_id = pyGet entry "eprint") ∧
    (pyMem entry "eprint" = false → pyMem entry "arxiv" = true →
      (dict_to_bib_entry entry).arxiv_id = pyGet entry "arxiv") ∧
    (pyMem entry "eprint" = false → pyMem entry "arxiv" = false →
      (dict_to_bib_entry entry).arxiv_id = none) ∧
    (∀ k v, (k, v) ∈ (dict_to_bib_entry entry).raw_fields →
      k ≠ "eprint" ∧ k ≠ "arxiv") ∧
    (dict_to_bib_entry sampleDict).arxiv_id = some "2401.00001" ∧
    (dict_to_bib_entry sampleDict).raw_fields = [] := by
  refine ⟨?_, ?_, ?_, ?_, by rfl, by rfl⟩
  · intro h
    simp [dict_to_bib_entry, extract_arxiv_id, h]
  · intro h1 h2
    simp [dict_to_bib_entry, extract_arxiv_id, h1, h2]
  · intro h1 h2
    simp [dict_to_bib_entry, extract_arxiv_id, h1, h2]
  · intro k v hkv
    have hmem := (List.mem_filter.mp hkv).2
    simp [reservedKeys] at hmem
    exact ⟨hmem.2.2.2.2.2.2.2.2.2.2.2.2.2.1, hmem.2.2.2.2.2.2.2.2.2.2.2.2.2.2⟩

/-- Witness for C7: with both alternate names present, `eprint` wins. -/
theorem arxiv_id_extraction_spec_witness :
    (dict_to_bib_entry [("eprint", "1234.5678"), ("arxiv", "9999.0000")]).arxiv_id =
      some "1234.5678" := by
  have h := (arxiv_id_extraction_spec
    [("eprint", "1234.5678"), ("arxiv", "9999.0000")]).1 (by decide)
  exact h.trans (by decide)

/-- Python `s[:n]`. -/
def pyTake (s : String) (n : Nat) : String :=
  ⟨s.data.take n⟩

/-- A JSON value, for the DBLP and CrossRef payloads. Where the Python
code would raise an uncaught TypeError/AttributeError on an absurdly
shaped payload (and so produce no candidate), the model yields the
defensive default; no claim distinguishes the two, since both produce no
usable candidate value on that path. -/
inductive Json where
  | null
  | str (s : String)
  | num (n : Int)
  | arr (items : List Json)
  | obj (fields : List (String × Json))
deriving Repr

/-- Python `d.get(k)` on a JSON object (absent / non-object gives None). -/
def jGet : Json → String → Option Json
  | Json.obj fields, k => (fields.find? (fun p => p.1 == k)).map Prod.snd
  | _, _ => none

/-- Python `d.get(k, default)` on a JSON object. -/
def jGetD (j : Json) (k : String) (d : Json) : Json :=
  (jGet j k).getD d

/-- Python truthiness of a JSON value. -/
def jTruthy : Json → Bool
  | Json.null => false
  | Json.str s => s ≠ ""
  | Json.num n => n ≠ 0
  | Json.arr l => !l.isEmpty
  | Json.obj l => !l.isEmpty

/-- Python truthiness of `d.get(k)`-style optional JSON values. -/
def optTruthyJ : Option Json → Bool
  | none => false
  | some j => jTruthy j

/-- The string content of a JSON value, when it is a string. -/
def jStr : Json → Option String
  | Json.str s => some s
  | _ => none

/-- Python `str(x)` on a JSON value; only the string and number renderings
are ever relied on. -/
def pyStrOfJson : Json → String
  | Json.str s => s
  | Json.num n => toString n
  | Json.null => "None"
  | Json.arr _ => "<list>"
  | Json.obj _ => "<dict>"

/-- An `<author>` element of the arXiv Atom feed: the stripped text of its
`<name>` child, when that child exists. -/
structure AtomAuthor where
  name : Option String
deriving Repr, DecidableEq

/-- The first `<entry>` element of the arXiv Atom feed, as seen by
`ArxivScraper._parse_response` after BeautifulSoup: the stripped text of
the `title`, `published` and `id` children (when found), and the author
elements. -/
structure AtomEntry where
  title : Option String
  authors : List AtomAuthor
  published : Option String
  idText : Option String
deriving Repr, DecidableEq

/-- `re.search(r"(\d+\.\d+)", ·)` tried at one position: a maximal
non-empty digit run, a dot, a non-empty digit run. -/
def matchNumDotNum (cs : List Char) : Option (List Char) :=
  let d1 := cs.takeWhile Char.isDigit
  if d1.isEmpty then none
  else
    match cs.drop d1.length with
    | '.' :: rest =>
      let d2 := rest.takeWhile Char.isDigit
      if d2.isEmpty then none else some (d1 ++ '.' :: d2)
    | _ => none

/-- `re.search(r"(\d+\.\d+)", ·)`: leftmost match wins. -/
def searchNumDotNum : List Char → Option (List Char)
  | [] => none
  | c :: cs =>
    match matchNumDotNum (c :: cs) with
    | some m => some m
    | none => searchNumDotNum cs

/-- `ArxivScraper._parse_response` from scrapers.py (lines 56–97): no
`<entry>` or no `<title>` yields no candidate; authors collect the names
of `<author>` elements that have a `<name>` child; the year is the first
four characters of `<published>`; a falsy `arxiv_id` argument is replaced
by the first `digits.digits` group of the `<id>` text when one matches. -/
def arxiv_parse_response (feedEntry : Option AtomEntry) (arxiv_id : Option String) :
    Option MetadataResult :=
  match feedEntry with
  | none => none
  | some entry =>
    match entry.title with
    | none => none
    | some title =>
      some { title := title
             authors :=
               if entry.authors.filterMap (fun a => a.name) = [] then none
               else some (entry.authors.filterMap (fun a => a.name))
             year := entry.published.map (fun p => pyTake p 4)
             arxiv_id :=
               if optTruthy arxiv_id then arxiv_id
               else
                 match entry.idText with
                 | none => arxiv_id
                 | some idt =>
                   match searchNumDotNum idt.data with
                   | some m => some ⟨m⟩
                   | none => arxiv_id
             source := "arxiv"
             confidence := 9/10 }

/-- The list built by `DBLPScraper._extract_authors` (scrapers.py lines
152–163): `info.get("authors", {}).get("author", [])`, a single dict
wrapped into a list, a string iterated character by character (Python
`for` over a `str`), dict items contributing `a.get("text", "")` and
string items themselves. -/
def dblp_author_list (info : Json) : List String :=
  let items : List Json :=
    match jGetD (jGetD info "authors" (Json.obj [])) "author" (Json.arr []) with
    | Json.obj fields => [Json.obj fields]
    | Json.arr l => l
    | Json.str s => s.data.map (fun c => Json.str ⟨[c]⟩)
    | _ => []
  items.foldl (fun acc a =>
    match a with
    | Json.obj _ => acc ++ [((jGet a "text").bind jStr).getD ""]
    | Json.str s => acc ++ [s]
    | _ => acc) []

/-- `DBLPScraper._extract_authors`: the final `authors if authors else None`. -/
def dblp_extract_authors (info : Json) : Option (List String) :=
  if dblp_author_list info = [] then none else some (dblp_author_list info)

/-- `DBLPScraper._parse_response` from scrapers.py (lines 120–150): falsy
`result`, falsy `hits.hit`, or an empty title yields no candidate; a
truthy non-list `hit` value raises KeyError/IndexError in Python, caught
to `None` (likewise modelled as no candidate). -/
def dblp_parse_response (data : Json) : Option MetadataResult :=
  if optTruthyJ (jGet data "result") = false then none
  else
    if jTruthy (jGetD (jGetD ((jGet data "result").getD Json.null) "hits" (Json.obj []))
        "hit" (Json.arr [])) = false then none
    else
      match jGetD (jGetD ((jGet data "result").getD Json.null) "hits" (Json.obj []))
          "hit" (Json.arr []) with
      | Json.arr (h0 :: _) =>
        if ((jGet (jGetD h0 "info" (Json.obj [])) "title").bind jStr).getD "" = ""
        then none
        else
          some { title := ((jGet (jGetD h0 "info" (Json.obj [])) "title").bind jStr).getD ""
                 authors := dblp_extract_authors (jGetD h0 "info" (Json.obj []))
                 year := (jGet (jGetD h0 "info" (Json.obj [])) "year").bind jStr
                 venue := (jGet (jGetD h0 "info" (Json.obj [])) "venue").bind jStr
                 doi := (jGet (jGetD h0 "info" (Json.obj [])) "doi").bind jStr
                 source := "dblp"
                 confidence := 17/20 }
      | _ => none

/-- The list built by `CrossRefScraper._extract_authors` (scrapers.py
lines 227–237): for each element of `work.get("author", [])`, the name is
`f"{given} {family}".strip()` and empty names are skipped. -/
def crossref_author_list (work : Json) : List String :=
  let authorsData : List Json :=
    match jGetD work "author" (Json.arr []) with
    | Json.arr l => l
    | _ => []
  authorsData.foldl (fun acc a =>
    let given := ((jGet a "given").bind jStr).getD ""
    let family := ((jGet a "family").bind jStr).getD ""
    let name := pyStrip (given ++ " " ++ family)
    if name = "" then acc else acc ++ [name]) []

/-- `CrossRefScraper._extract_authors`: the final `authors if authors else None`. -/
def crossref_extract_authors (work : Json) : Option (List String) :=
  if crossref_author_list work = [] then none else some (crossref_author_list work)

/-- One step of `CrossRefScraper._extract_year` (scrapers.py lines
239–245): `work.get(key, {}).get("date-parts", [[]])`, returning
`str(date_parts[0][0])` when both the list and its first element are
truthy, otherwise moving on. -/
def dateFirst (work : Json) (key : String) : Option String :=
  match jGetD (jGetD work key (Json.obj [])) "date-parts" (Json.arr [Json.arr []]) with
  | Json.arr (d0 :: _) =>
    if jTruthy d0 then
      match d0 with
      | Json.arr (x :: _) => some (pyStrOfJson x)
      | _ => none
    else none
  | _ => none

/-- `CrossRefScraper._extract_year`: the keys tried in fixed priority
order — print date, then online date, then record-creation date. -/
def crossref_extract_year (work : Json) : Option String :=
  match dateFirst work "published-print" with
  | some y => some y
  | none =>
    match dateFirst work "published-online" with
    | some y => some y
    | none => dateFirst work "created"

/-- `CrossRefScraper._parse_work` from scrapers.py (lines 200–225): an
empty (or absent) first title yields no candidate; journal is the first
`container-title` element when that list is truthy. -/
def crossref_parse_work (work : Json) : Option MetadataResult :=
  match jGetD work "title" (Json.arr []) with
  | Json.arr (t0 :: _) =>
    if (jStr t0).getD "" = "" then none
    else
      some { title := (jStr t0).getD ""
             authors := crossref_extract_authors work
             year := crossref_extract_year work
             doi := (jGet work "DOI").bind jStr
             journal :=
               match jGetD work "container-title" (Json.arr []) with
               | Json.arr (j0 :: _) => jStr j0
               | _ => none
             volume := (jGet work "volume").bind jStr
             pages := (jGet work "page").bind jStr
             source := "crossref"
             confidence := 4/5 }
  | _ => none

/-- C8: whatever the feed or payload contains, every candidate the arXiv
parser produces carries confidence 0.9, every DBLP candidate 0.85, and
every CrossRef candidate 0.8. -/
theorem provider_confidence_constants :
    (∀ (e : Option AtomEntry) (a : Option String) (r : MetadataResult),
      arxiv_parse_response e a = some r → r.confidence = 9/10) ∧
    (∀ (d : Json) (r : MetadataResult),
      dblp_parse_response d = some r → r.confidence = 17/20) ∧
    (∀ (w : Json) (r : MetadataResult),
      crossref_parse_work w = some r → r.confidence = 4/5) := by
  refine ⟨?_, ?_, ?_⟩
  · intro e a r h
    cases e with
    | none => exact Option.noConfusion h
    | some entry =>
      cases ht : entry.title with
      | none =>
        simp only [arxiv_parse_response, ht] at h
        exact Option.noConfusion h
      | some t =>
        simp only [arxiv_parse_response, ht, Option.some.injEq] at h
        subst h
        rfl
  · intro d r h
    simp only [dblp_parse_response] at h
    repeat' split at h
    all_goals first
      | exact Option.noConfusion h
      | (rw [Option.some.injEq] at h
         subst h
         rfl)
  · intro w r h
    simp only [crossref_parse_work] at h
    repeat' split at h
    all_goals first
      | exact Option.noConfusion h
      | (rw [Option.some.injEq] at h
         subst h
         rfl)

/-- The `<entry>` of the arXiv feed used in the repository's own tests. -/
def atomSample : AtomEntry :=
  { title := some "Test Paper Title"
    authors := [{ name := some "John Doe" }]
    published := some "2024-01-15T00:00:00Z"
    idText := some "http://arxiv.org/abs/2401.12345v1" }

/-- The candidate the arXiv parser produces from `atomSample`. -/
def arxivSampleResult : MetadataResult :=
  { title := "Test Paper Title"
    authors := some ["John Doe"]
    year := some "2024"
    arxiv_id := some "2401.12345"
    source := "arxiv"
    confidence := 9/10 }

/-- A one-hit DBLP payload. -/
def dblpSample : Json :=
  Json.obj [("result", Json.obj [("hits", Json.obj [("hit", Json.arr [
    Json.obj [("info", Json.obj [("title", Json.str "T"), ("year", Json.str "2020"),
      ("authors", Json.obj [("author", Json.obj [("text", Json.str "A")])])])]])])])]

/-- The candidate the DBLP parser produces from `dblpSample`. -/
def dblpSampleResult : MetadataResult :=
  { title := "T"
    authors := some ["A"]
    year := some "2020"
    source := "dblp"
    confidence := 17/20 }

/-- A CrossRef work item. -/
def crossrefSample : Json :=
  Json.obj [("title", Json.arr [Json.str "T"]), ("DOI", Json.str "10.1/x"),
    ("author", Json.arr [Json.obj [("given", Json.str "J"), ("family", Json.str "D")]])]

/-- The candidate the CrossRef parser produces from `crossrefSample`. -/
def crossrefSampleResult : MetadataResult :=
  { title := "T"
    authors := some ["J D"]
    doi := some "10.1/x"
    source := "crossref"
    confidence := 4/5 }

/-- Witness for C8 on concrete provider responses. -/
theorem provider_confidence_constants_witness :
    arxivSampleResult.confidence = 9/10 ∧
    dblpSampleResult.confidence = 17/20 ∧
    crossrefSampleResult.confidence = 4/5 :=
  ⟨provider_confidence_constants.1 (some atomSample) (some "2401.12345")
      arxivSampleResult rfl,
   provider_confidence_constants.2.1 dblpSample dblpSampleResult rfl,
   provider_confidence_constants.2.2 crossrefSample crossrefSampleResult rfl⟩

/-- C9: none of the author-building operations can produce an empty
sequence — each returns either no author list or a non-empty one, and the
empty author string yields no author list. -/
theorem author_lists_never_empty :
    (∀ s : Option String, parse_authors s = none ∨
      ∃ a l, parse_authors s = some (a :: l)) ∧
    parse_authors (some "") = none ∧
    (∀ info : Json, dblp_extract_authors info = none ∨
      ∃ a l, dblp_extract_authors info = some (a :: l)) ∧
    (∀ work : Json, crossref_extract_authors work = none ∨
      ∃ a l, crossref_extract_authors work = some (a :: l)) := by
  refine ⟨?_, rfl, ?_, ?_⟩
  · intro s
    cases s with
    | none => exact Or.inl rfl
    | some s =>
      by_cases hs : s = ""
      · exact Or.inl (by simp [parse_authors, hs])
      · by_cases hl : (pySplitAnd s).map pyStrip = []
        · exact Or.inl (by simp [parse_authors, hs, hl])
        · cases hsp : (pySplitAnd s).map pyStrip with
          | nil => exact absurd hsp hl
          | cons a l =>
            exact Or.inr ⟨a, l, by simp [parse_authors, hs, hl, hsp]⟩
  · intro info
    by_cases h : dblp_author_list info = []
    · exact Or.inl (by simp [dblp_extract_authors, h])
    · cases hl : dblp_author_list info with
      | nil => exact absurd hl h
      | cons a l => exact Or.inr ⟨a, l, by simp [dblp_extract_authors, h, hl]⟩
  · intro work
    by_cases h : crossref_author_list work = []
    · exact Or.inl (by simp [crossref_extract_authors, h])
    · cases hl : crossref_author_list work with
      | nil => exact absurd hl h
      | cons a l => exact Or.inr ⟨a, l, by simp [crossref_extract_authors, h, hl]⟩

/-- Python `" and ".join(authors)`. -/
def pyJoinAnd (l : List String) : String :=
  ⟨List.intercalate sepAnd (l.map String.data)⟩

/-- Python `result[k] = v` on a dict: overwrite in place when the key
exists, append otherwise. -/
def pyDictSet (d : PyEntry) (k v : String) : PyEntry :=
  if pyMem d k then d.map (fun p => if p.1 == k then (k, v) else p)
  else d ++ [(k, v)]

/-- Python `result.update(raw_fields)`. -/
def pyUpdate (d : PyEntry) (kvs : List (String × String)) : PyEntry :=
  kvs.foldl (fun acc p => pyDictSet acc p.1 p.2) d

/-- One conditional field write of `_bib_entry_to_dict`:
`if entry.f: result[key] = entry.f` adds the key only for a present,
non-empty (truthy) value. -/
def optFieldIf (key : String) : Option String → PyEntry
  | some s => if s = "" then [] else [(key, s)]
  | none => []

/-- The author write of `_bib_entry_to_dict`:
`if entry.authors: result["author"] = " and ".join(entry.authors)`. -/
def authorField : Option (List String) → PyEntry
  | none => []
  | some l => if l = [] then [] else [("author", pyJoinAnd l)]

/-- The dict built by `_bib_entry_to_dict` before `update(raw_fields)`
(bib_parser.py lines 119–146), in the source's write order; all keys are
distinct literals, so sequential dict insertion is concatenation. `venue`
is never written. -/
def knownFields (entry : BibEntry) : PyEntry :=
  [("ENTRYTYPE", entry.entry_type), ("ID", entry.cite_key), ("title", entry.title)]
    ++ authorField entry.authors
    ++ optFieldIf "year" entry.year
    ++ optFieldIf "doi" entry.doi
    ++ optFieldIf "eprint" entry.arxiv_id
    ++ optFieldIf "url" entry.url
    ++ optFieldIf "abstract" entry.abstract
    ++ optFieldIf "booktitle" entry.booktitle
    ++ optFieldIf "journal" entry.journal
    ++ optFieldIf "volume" entry.volume
    ++ optFieldIf "pages" entry.pages
    ++ optFieldIf "publisher" entry.publisher

/-- `_bib_entry_to_dict` from bib_parser.py (lines 117–149). -/
def bib_entry_to_dict (entry : BibEntry) : PyEntry :=
  pyUpdate (knownFields entry) entry.raw_fields

/-- Modelled from the spec: `entry_to_bibtex` / `write_bib_file` render
entries through the external `BibTexWriter`, and `parse_bib_string` reads
the text back through the external `bibtexparser.loads`; both live in the
third-party `bibtexparser` library, not in this repository. Per the
spec's stored-collection format (§6: entries as field = value pairs) this
external write–parse pair reproduces each entry's field mapping, so
parsing the serialization of a record list is
`dict_to_bib_entry ∘ bib_entry_to_dict` applied to each record. -/
def roundtrip_records (entries : List BibEntry) : List BibEntry :=
  entries.map (fun e => dict_to_bib_entry (bib_entry_to_dict e))

lemma pyGet_cons_ne (a : String × String) (d : PyEntry) (k : String)
    (h : (a.1 == k) = false) : pyGet (a :: d) k = pyGet d k := by
  simp [pyGet, List.find?_cons, h]

lemma pyGet_cons_self (k v : String) (d : PyEntry) :
    pyGet ((k, v) :: d) k = some v := by
  simp [pyGet, List.find?_cons]

lemma find?_key_append (d₁ d₂ : PyEntry) (k : String) :
    (d₁ ++ d₂).find? (fun p => p.1 == k) =
      match d₁.find? (fun p => p.1 == k) with
      | some p => some p
      | none => d₂.find? (fun p => p.1 == k) := by
  induction d₁ with
  | nil => simp
  | cons a d ih =>
    cases ha : (a.1 == k) with
    | true => simp [List.find?_cons, ha]
    | false => simp [List.find?_cons, ha, ih]

lemma pyGet_append_none (d₁ d₂ : PyEntry) (k : String) (h : pyGet d₁ k = none) :
    pyGet (d₁ ++ d₂) k = pyGet d₂ k := by
  unfold pyGet at h ⊢
  rw [find?_key_append]
  cases hf : d₁.find? (fun p => p.1 == k) with
  | none => simp [hf]
  | some p =>
    rw [hf] at h
    simp at h

lemma pyGet_append_some (d₁ d₂ : PyEntry) (k v : String)
    (h : pyGet d₁ k = some v) : pyGet (d₁ ++ d₂) k = some v := by
  unfold pyGet at h ⊢
  rw [find?_key_append]
  cases hf : d₁.find? (fun p => p.1 == k) with
  | none =>
    rw [hf] at h
    simp at h
  | some p =>
    rw [hf] at h
    simp at h
    simp [hf, h]

lemma pyGet_none_of (d : PyEntry) (k : String)
    (h : ∀ p ∈ d, (p.1 == k) = false) : pyGet d k = none := by
  induction d with
  | nil => rfl
  | cons a d ih =>
    rw [pyGet_cons_ne a d k (h a (List.mem_cons_self a d))]
    exact ih (fun p hp => h p (List.mem_cons_of_mem a hp))

lemma pyGet_eq_none_of_mem_false (d : PyEntry) (k : String)
    (h : pyMem d k = false) : pyGet d k = none := by
  cases hg : pyGet d k with
  | none => rfl
  | some v =>
    unfold pyMem at h
    rw [hg] at h
    simp at h

lemma pyMem_eq_false (d : PyEntry) (k : String) (h : pyGet d k = none) :
    pyMem d k = false := by
  simp [pyMem, h]

lemma pyUpdate_append (kvs : List (String × String)) (d : PyEntry)
    (hdisj : ∀ p ∈ kvs, pyMem d p.1 = false)
    (hnodup : (kvs.map Prod.fst).Nodup) :
    pyUpdate d kvs = d ++ kvs := by
  induction kvs generalizing d with
  | nil => simp [pyUpdate]
  | cons a rest ih =>
    obtain ⟨k, v⟩ := a
    have hmem : pyMem d k = false := hdisj (k, v) (List.mem_cons_self _ _)
    rw [List.map_cons, List.nodup_cons] at hnodup
    have hstep : pyUpdate d ((k, v) :: rest) = pyUpdate (d ++ [(k, v)]) rest := by
      simp [pyUpdate, pyDictSet, hmem]
    have hd2 : ∀ p ∈ rest, pyMem (d ++ [(k, v)]) p.1 = false := by
      intro p hp
      apply pyMem_eq_false
      rw [pyGet_append_none d [(k, v)] p.1
        (pyGet_eq_none_of_mem_false d p.1 (hdisj p (List.mem_cons_of_mem _ hp)))]
      have hne : (k == p.1) = false := by
        apply beq_eq_false_iff_ne.mpr
        intro hkp
        exact hnodup.1 (by rw [hkp]; exact List.mem_map.mpr ⟨p, hp, rfl⟩)
      exact (pyGet_cons_ne (k, v) [] p.1 hne).trans rfl
    rw [hstep, ih (d ++ [(k, v)]) hd2 hnodup.2]
    simp

lemma pyGet_optFieldIf_ne (key : String) (o : Option String) (k : String)
    (h : (key == k) = false) : pyGet (optFieldIf key o) k = none := by
  cases o with
  | none => rfl
  | some s =>
    by_cases hs : s = ""
    · simp [optFieldIf, hs, pyGet]
    · simp [optFieldIf, hs, pyGet, List.find?_cons, h]

lemma pyGet_optFieldIf_self (key s : String) (hs : s ≠ "") :
    pyGet (optFieldIf key (some s)) key = some s := by
  simp [optFieldIf, hs, pyGet, List.find?_cons]

lemma pyGet_authorField_ne (a : Option (List String)) (k : String)
    (h : ("author" == k) = false) : pyGet (authorField a) k = none := by
  cases a with
  | none => rfl
  | some l =>
    by_cases hl : l = []
    · simp [authorField, hl, pyGet]
    · simp [authorField, hl, pyGet, List.find?_cons, h]

lemma pyGet_optField_head (key : String) (o : Option String) (suf : PyEntry)
    (hsuf : pyGet suf key = none) (ho : o ≠ some "") :
    pyGet (optFieldIf key o ++ suf) key = o := by
  cases o with
  | none =>
    rw [pyGet_append_none _ _ _ (by rfl)]
    exact hsuf
  | some s =>
    have hs : s ≠ "" := fun hx => ho (by rw [hx])
    exact pyGet_append_some _ _ _ _ (pyGet_optFieldIf_self key s hs)

/-- The conditional optional-field segments of `_bib_entry_to_dict`, as
(key, value) descriptors in the source's write order. -/
def segs (e : BibEntry) : List (String × Option String) :=
  [("year", e.year), ("doi", e.doi), ("eprint", e.arxiv_id), ("url", e.url),
   ("abstract", e.abstract), ("booktitle", e.booktitle), ("journal", e.journal),
   ("volume", e.volume), ("pages", e.pages), ("publisher", e.publisher)]

/-- The dict region built from a run of conditional field writes, ahead of
a fixed tail. -/
def segChain (l : List (String × Option String)) (tail : PyEntry) : PyEntry :=
  l.foldr (fun kv acc => optFieldIf kv.1 kv.2 ++ acc) tail

lemma forall_key_ne (l : List (String × Option String)) (k : String)
    (h : ∀ s ∈ l.map Prod.fst, (s == k) = false) :
    ∀ kv ∈ l, (kv.1 == k) = false :=
  fun kv hkv => h kv.1 (List.mem_map.mpr ⟨kv, hkv, rfl⟩)

lemma pyGet_segChain_ne (l : List (String × Option String)) (tail : PyEntry)
    (k : String) (hl : ∀ kv ∈ l, (kv.1 == k) = false)
    (htail : pyGet tail k = none) :
    pyGet (segChain l tail) k = none := by
  induction l with
  | nil => exact htail
  | cons kv l ih =>
    rw [show segChain (kv :: l) tail = optFieldIf kv.1 kv.2 ++ segChain l tail from rfl]
    rw [pyGet_append_none _ _ _ (pyGet_optFieldIf_ne kv.1 kv.2 k
      (hl kv (List.mem_cons_self _ _)))]
    exact ih (fun x hx => hl x (List.mem_cons_of_mem _ hx))

lemma pyGet_segChain_at (l₁ l₂ : List (String × Option String)) (key : String)
    (o : Option String) (tail : PyEntry)
    (h₁ : ∀ kv ∈ l₁, (kv.1 == key) = false)
    (h₂ : ∀ kv ∈ l₂, (kv.1 == key) = false)
    (htail : pyGet tail key = none) (ho : o ≠ some "") :
    pyGet (segChain (l₁ ++ (key, o) :: l₂) tail) key = o := by
  induction l₁ with
  | nil =>
    rw [List.nil_append,
      show segChain ((key, o) :: l₂) tail = optFieldIf key o ++ segChain l₂ tail from rfl]
    exact pyGet_optField_head key o _ (pyGet_segChain_ne l₂ tail key h₂ htail) ho
  | cons kv l ih =>
    rw [List.cons_append,
      show segChain (kv :: (l ++ (key, o) :: l₂)) tail =
        optFieldIf kv.1 kv.2 ++ segChain (l ++ (key, o) :: l₂) tail from rfl]
    rw [pyGet_append_none _ _ _ (pyGet_optFieldIf_ne kv.1 kv.2 key
      (h₁ kv (List.mem_cons_self _ _)))]
    exact ih (fun x hx => h₁ x (List.mem_cons_of_mem _ hx))

lemma optFieldIf_key_mem (key : String) (o : Option String) (p : String × String)
    (hp : p ∈ optFieldIf key o) : p.1 = key := by
  cases o with
  | none => simp [optFieldIf] at hp
  | some s =>
    by_cases hs : s = ""
    · simp [optFieldIf, hs] at hp
    · simp [optFieldIf, hs] at hp
      rw [hp]

lemma authorField_key_mem (a : Option (List String)) (p : String × String)
    (hp : p ∈ authorField a) : p.1 = "author" := by
  cases a with
  | none => simp [authorField] at hp
  | some l =>
    by_cases hl : l = []
    · simp [authorField, hl] at hp
    · simp [authorField, hl] at hp
      rw [hp]

lemma knownFields_keys (e : BibEntry) :
    ∀ p ∈ knownFields e, p.1 ∈ reservedKeys := by
  intro p hp
  unfold knownFields at hp
  simp only [List.append_assoc, List.cons_append, List.nil_append, List.mem_cons,
    List.mem_append] at hp
  rcases hp with rfl | rfl | rfl | h | h | h | h | h | h | h | h | h | h | h
  · exact show "ENTRYTYPE" ∈ reservedKeys by decide
  · exact show "ID" ∈ reservedKeys by decide
  · exact show "title" ∈ reservedKeys by decide
  · rw [authorField_key_mem e.authors p h]; decide
  · rw [optFieldIf_key_mem "year" e.year p h]; decide
  · rw [optFieldIf_key_mem "doi" e.doi p h]; decide
  · rw [optFieldIf_key_mem "eprint" e.arxiv_id p h]; decide
  · rw [optFieldIf_key_mem "url" e.url p h]; decide
  · rw [optFieldIf_key_mem "abstract" e.abstract p h]; decide
  · rw [optFieldIf_key_mem "booktitle" e.booktitle p h]; decide
  · rw [optFieldIf_key_mem "journal" e.journal p h]; decide
  · rw [optFieldIf_key_mem "volume" e.volume p h]; decide
  · rw [optFieldIf_key_mem "pages" e.pages p h]; decide
  · rw [optFieldIf_key_mem "publisher" e.publisher p h]; decide

/-- Well-formedness of the open field mapping for serialization: keys are
unique and none clashes with a recognized field name. -/
abbrev rawFieldsOK (raw : List (String × String)) : Prop :=
  (∀ p ∈ raw, p.1 ∉ reservedKeys) ∧ (raw.map Prod.fst).Nodup

lemma knownFields_disjoint_raw (e : BibEntry) (hraw : rawFieldsOK e.raw_fields) :
    ∀ p ∈ e.raw_fields, pyMem (knownFields e) p.1 = false := by
  intro p hp
  apply pyMem_eq_false
  apply pyGet_none_of
  intro q hq
  apply beq_eq_false_iff_ne.mpr
  intro hqp
  exact hraw.1 p hp (by rw [← hqp]; exact knownFields_keys e q hq)

lemma pyGet_raw_reserved (raw : List (String × String)) (k : String)
    (hk : k ∈ reservedKeys) (h : ∀ p ∈ raw, p.1 ∉ reservedKeys) :
    pyGet raw k = none := by
  apply pyGet_none_of
  intro p hp
  apply beq_eq_false_iff_ne.mpr
  intro hpk
  exact h p hp (by rw [hpk]; exact hk)

lemma forall_key_ne_of_keys (keys : List String) (vals : List (String × Option String))
    (k : String) (hkeys : vals.map Prod.fst = keys)
    (h : ∀ s ∈ keys, (s == k) = false) : ∀ kv ∈ vals, (kv.1 == k) = false := by
  intro kv hkv
  exact h kv.1 (by rw [← hkeys]; exact List.mem_map.mpr ⟨kv, hkv, rfl⟩)

lemma bib_entry_to_dict_flat (e : BibEntry) (hraw : rawFieldsOK e.raw_fields) :
    bib_entry_to_dict e =
      ("ENTRYTYPE", e.entry_type) :: ("ID", e.cite_key) :: ("title", e.title) ::
        (authorField e.authors ++ segChain (segs e) e.raw_fields) := by
  simp only [bib_entry_to_dict]
  rw [pyUpdate_append e.raw_fields (knownFields e)
    (knownFields_disjoint_raw e hraw) hraw.2]
  simp [knownFields, segChain, segs, List.append_assoc]

lemma pyGet_flat_body (e : BibEntry) (hraw : rawFieldsOK e.raw_fields) (k : String)
    (h1 : ("ENTRYTYPE" == k) = false) (h2 : ("ID" == k) = false)
    (h3 : ("title" == k) = false) :
    pyGet (bib_entry_to_dict e) k =
      pyGet (authorField e.authors ++ segChain (segs e) e.raw_fields) k := by
  rw [bib_entry_to_dict_flat e hraw, pyGet_cons_ne _ _ _ h1, pyGet_cons_ne _ _ _ h2,
    pyGet_cons_ne _ _ _ h3]

lemma pyGet_flat_seg (e : BibEntry) (hraw : rawFieldsOK e.raw_fields) (k : String)
    (h1 : ("ENTRYTYPE" == k) = false) (h2 : ("ID" == k) = false)
    (h3 : ("title" == k) = false) (h4 : ("author" == k) = false) :
    pyGet (bib_entry_to_dict e) k = pyGet (segChain (segs e) e.raw_fields) k := by
  rw [pyGet_flat_body e hraw k h1 h2 h3,
    pyGet_append_none _ _ _ (pyGet_authorField_ne e.authors k h4)]

lemma pyGet_dict_year (e : BibEntry) (hraw : rawFieldsOK e.raw_fields)
    (hv : e.year ≠ some "") : pyGet (bib_entry_to_dict e) "year" = e.year := by
  rw [pyGet_flat_seg e hraw "year" rfl rfl rfl rfl]
  exact pyGet_segChain_at [] [("doi", e.doi), ("eprint", e.arxiv_id), ("url", e.url), ("abstract", e.abstract), ("booktitle", e.booktitle), ("journal", e.journal), ("volume", e.volume), ("pages", e.pages), ("publisher", e.publisher)] "year" e.year e.raw_fields
    (forall_key_ne_of_keys [] _ "year" rfl (by decide))
    (forall_key_ne_of_keys ["doi", "eprint", "url", "abstract", "booktitle", "journal", "volume", "pages", "publisher"] _ "year" rfl (by decide))
    (pyGet_raw_reserved e.raw_fields "year" (by decide) hraw.1) hv

lemma pyGet_dict_doi (e : BibEntry) (hraw : rawFieldsOK e.raw_fields)
    (hv : e.doi ≠ some "") : pyGet (bib_entry_to_dict e) "doi" = e.doi := by
  rw [pyGet_flat_seg e hraw "doi" rfl rfl rfl rfl]
  exact pyGet_segChain_at [("year", e.year)] [("eprint", e.arxiv_id), ("url", e.url), ("abstract", e.abstract), ("booktitle", e.booktitle), ("journal", e.journal), ("volume", e.volume), ("pages", e.pages), ("publisher", e.publisher)] "doi" e.doi e.raw_fields
    (forall_key_ne_of_keys ["year"] _ "doi" rfl (by decide))
    (forall_key_ne_of_keys ["eprint", "url", "abstract", "booktitle", "journal", "volume", "pages", "publisher"] _ "doi" rfl (by decide))
    (pyGet_raw_reserved e.raw_fields "doi" (by decide) hraw.1) hv

lemma pyGet_dict_eprint (e : BibEntry) (hraw : rawFieldsOK e.raw_fields)
    (hv : e.arxiv_id ≠ some "") : pyGet (bib_entry_to_dict e) "eprint" = e.arxiv_id := by
  rw [pyGet_flat_seg e hraw "eprint" rfl rfl rfl rfl]
  exact pyGet_segChain_at [("year", e.year), ("doi", e.doi)] [("url", e.url), ("abstract", e.abstract), ("booktitle", e.booktitle), ("journal", e.journal), ("volume", e.volume), ("pages", e.pages), ("publisher", e.publisher)] "eprint" e.arxiv_id e.raw_fields
    (forall_key_ne_of_keys ["year", "doi"] _ "eprint" rfl (by decide))
    (forall_key_ne_of_keys ["url", "abstract", "booktitle", "journal", "volume", "pages", "publisher"] _ "eprint" rfl (by decide))
    (pyGet_raw_reserved e.raw_fields "eprint" (by decide) hraw.1) hv

lemma pyGet_dict_url (e : BibEntry) (hraw : rawFieldsOK e.raw_fields)
    (hv : e.url ≠ some "") : pyGet (bib_entry_to_dict e) "url" = e.url := by
  rw [pyGet_flat_seg e hraw "url" rfl rfl rfl rfl]
  exact pyGet_segChain_at [("year", e.year), ("doi", e.doi), ("eprint", e.arxiv_id)] [("abstract", e.abstract), ("booktitle", e.booktitle), ("journal", e.journal), ("volume", e.volume), ("pages", e.pages), ("publisher", e.publisher)] "url" e.url e.raw_fields
    (forall_key_ne_of_keys ["year", "doi", "eprint"] _ "url" rfl (by decide))
    (forall_key_ne_of_keys ["abstract", "booktitle", "journal", "volume", "pages", "publisher"] _ "url" rfl (by decide))
    (pyGet_raw_reserved e.raw_fields "url" (by decide) hraw.1) hv

lemma pyGet_dict_abstract (e : BibEntry) (hraw : rawFieldsOK e.raw_fields)
    (hv : e.abstract ≠ some "") : pyGet (bib_entry_to_dict e) "abstract" = e.abstract := by
  rw [pyGet_flat_seg e hraw "abstract" rfl rfl rfl rfl]
  exact pyGet_segChain_at [("year", e.year), ("doi", e.doi), ("eprint", e.arxiv_id), ("url", e.url)] [("booktitle", e.booktitle), ("journal", e.journal), ("volume", e.volume), ("pages", e.pages), ("publisher", e.publisher)] "abstract" e.abstract e.raw_fields
    (forall_key_ne_of_keys ["year", "doi", "eprint", "url"] _ "abstract" rfl (by decide))
    (forall_key_ne_of_keys ["booktitle", "journal", "volume", "pages", "publisher"] _ "abstract" rfl (by decide))
    (pyGet_raw_reserved e.raw_fields "abstract" (by decide) hraw.1) hv

lemma pyGet_dict_booktitle (e : BibEntry) (hraw : rawFieldsOK e.raw_fields)
    (hv : e.booktitle ≠ some "") : pyGet (bib_entry_to_dict e) "booktitle" = e.booktitle := by
  rw [pyGet_flat_seg e hraw "booktitle" rfl rfl rfl rfl]
  exact pyGet_segChain_at [("year", e.year), ("doi", e.doi), ("eprint", e.arxiv_id), ("url", e.url), ("abstract", e.abstract)] [("journal", e.journal), ("volume", e.volume), ("pages", e.pages), ("publisher", e.publisher)] "booktitle" e.booktitle e.raw_fields
    (forall_key_ne_of_keys ["year", "doi", "eprint", "url", "abstract"] _ "booktitle" rfl (by decide))
    (forall_key_ne_of_keys ["journal", "volume", "pages", "publisher"] _ "booktitle" rfl (by decide))
    (pyGet_raw_reserved e.raw_fields "booktitle" (by decide) hraw.1) hv

lemma pyGet_dict_journal (e : BibEntry) (hraw : rawFieldsOK e.raw_fields)
    (hv : e.journal ≠ some "") : pyGet (bib_entry_to_dict e) "journal" = e.journal := by
  rw [pyGet_flat_seg e hraw "journal" rfl rfl rfl rfl]
  exact pyGet_segChain_at [("year", e.year), ("doi", e.doi), ("eprint", e.arxiv_id), ("url", e.url), ("abstract", e.abstract), ("booktitle", e.booktitle)] [("volume", e.volume), ("pages", e.pages), ("publisher", e.publisher)] "journal" e.journal e.raw_fields
    (forall_key_ne_of_keys ["year", "doi", "eprint", "url", "abstract", "booktitle"] _ "journal" rfl (by decide))
    (forall_key_ne_of_keys ["volume", "pages", "publisher"] _ "journal" rfl (by decide))
    (pyGet_raw_reserved e.raw_fields "journal" (by decide) hraw.1) hv

lemma pyGet_dict_volume (e : BibEntry) (hraw : rawFieldsOK e.raw_fields)
    (hv : e.volume ≠ some "") : pyGet (bib_entry_to_dict e) "volume" = e.volume := by
  rw [pyGet_flat_seg e hraw "volume" rfl rfl rfl rfl]
  exact pyGet_segChain_at [("year", e.year), ("doi", e.doi), ("eprint", e.arxiv_id), ("url", e.url), ("abstract", e.abstract), ("booktitle", e.booktitle), ("journal", e.journal)] [("pages", e.pages), ("publisher", e.publisher)] "volume" e.volume e.raw_fields
    (forall_key_ne_of_keys ["year", "doi", "eprint", "url", "abstract", "booktitle", "journal"] _ "volume" rfl (by decide))
    (forall_key_ne_of_keys ["pages", "publisher"] _ "volume" rfl (by decide))
    (pyGet_raw_reserved e.raw_fields "volume" (by decide) hraw.1) hv

lemma pyGet_dict_pages (e : BibEntry) (hraw : rawFieldsOK e.raw_fields)
    (hv : e.pages ≠ some "") : pyGet (bib_entry_to_dict e) "pages" = e.pages := by
  rw [pyGet_flat_seg e hraw "pages" rfl rfl rfl rfl]
  exact pyGet_segChain_at [("year", e.year), ("doi", e.doi), ("eprint", e.arxiv_id), ("url", e.url), ("abstract", e.abstract), ("booktitle", e.booktitle), ("journal", e.journal), ("volume", e.volume)] [("publisher", e.publisher)] "pages" e.pages e.raw_fields
    (forall_key_ne_of_keys ["year", "doi", "eprint", "url", "abstract", "booktitle", "journal", "volume"] _ "pages" rfl (by decide))
    (forall_key_ne_of_keys ["publisher"] _ "pages" rfl (by decide))
    (pyGet_raw_reserved e.raw_fields "pages" (by decide) hraw.1) hv

lemma pyGet_dict_publisher (e : BibEntry) (hraw : rawFieldsOK e.raw_fields)
    (hv : e.publisher ≠ some "") : pyGet (bib_entry_to_dict e) "publisher" = e.publisher := by
  rw [pyGet_flat_seg e hraw "publisher" rfl rfl rfl rfl]
  exact pyGet_segChain_at [("year", e.year), ("doi", e.doi), ("eprint", e.arxiv_id), ("url", e.url), ("abstract", e.abstract), ("booktitle", e.booktitle), ("journal", e.journal), ("volume", e.volume), ("pages", e.pages)] [] "publisher" e.publisher e.raw_fields
    (forall_key_ne_of_keys ["year", "doi", "eprint", "url", "abstract", "booktitle", "journal", "volume", "pages"] _ "publisher" rfl (by decide))
    (forall_key_ne_of_keys [] _ "publisher" rfl (by decide))
    (pyGet_raw_reserved e.raw_fields "publisher" (by decide) hraw.1) hv

lemma pyGet_dict_arxiv_key (e : BibEntry) (hraw : rawFieldsOK e.raw_fields) :
    pyGet (bib_entry_to_dict e) "arxiv" = none := by
  rw [pyGet_flat_seg e hraw "arxiv" rfl rfl rfl rfl]
  exact pyGet_segChain_ne (segs e) e.raw_fields "arxiv"
    (forall_key_ne_of_keys ["year", "doi", "eprint", "url", "abstract", "booktitle", "journal", "volume", "pages", "publisher"] _ "arxiv" rfl (by decide))
    (pyGet_raw_reserved e.raw_fields "arxiv" (by decide) hraw.1)

lemma pyGet_dict_author (e : BibEntry) (hraw : rawFieldsOK e.raw_fields) :
    pyGet (bib_entry_to_dict e) "author" =
      (match e.authors with
       | none => none
       | some l => if l = [] then none else some (pyJoinAnd l)) := by
  rw [pyGet_flat_body e hraw "author" rfl rfl rfl]
  have htail : pyGet (segChain (segs e) e.raw_fields) "author" = none :=
    pyGet_segChain_ne (segs e) e.raw_fields "author"
      (forall_key_ne_of_keys ["year", "doi", "eprint", "url", "abstract", "booktitle", "journal", "volume", "pages", "publisher"] _ "author" rfl (by decide))
      (pyGet_raw_reserved e.raw_fields "author" (by decide) hraw.1)
  cases ha : e.authors with
  | none =>
    rw [show authorField none = ([] : PyEntry) from rfl, List.nil_append]
    exact htail
  | some l =>
    by_cases hl : l = []
    · rw [show authorField (some l) = ([] : PyEntry) from by simp [authorField, hl],
        List.nil_append, htail]
      simp [hl]
    · rw [show authorField (some l) = [("author", pyJoinAnd l)] from by
        simp [authorField, hl], List.singleton_append, pyGet_cons_self]
      simp [hl]

lemma pyGet_dict_ENTRYTYPE (e : BibEntry) (hraw : rawFieldsOK e.raw_fields) :
    pyGet (bib_entry_to_dict e) "ENTRYTYPE" = some e.entry_type := by
  rw [bib_entry_to_dict_flat e hraw, pyGet_cons_self]

lemma pyGet_dict_ID (e : BibEntry) (hraw : rawFieldsOK e.raw_fields) :
    pyGet (bib_entry_to_dict e) "ID" = some e.cite_key := by
  rw [bib_entry_to_dict_flat e hraw,
    pyGet_cons_ne ("ENTRYTYPE", e.entry_type) _ "ID" rfl, pyGet_cons_self]

lemma pyGet_dict_title (e : BibEntry) (hraw : rawFieldsOK e.raw_fields) :
    pyGet (bib_entry_to_dict e) "title" = some e.title := by
  rw [bib_entry_to_dict_flat e hraw,
    pyGet_cons_ne ("ENTRYTYPE", e.entry_type) _ "title" rfl,
    pyGet_cons_ne ("ID", e.cite_key) _ "title" rfl, pyGet_cons_self]

lemma contains_eq_false_of_not_mem (l : List String) (k : String) (h : k ∉ l) :
    l.contains k = false := by
  simpa using h

lemma filter_optFieldIf (key : String) (o : Option String)
    (hk : key ∈ reservedKeys) :
    (optFieldIf key o).filter (fun p => !decide (p.1 ∈ reservedKeys)) = [] := by
  cases o with
  | none => rfl
  | some s =>
    by_cases hs : s = ""
    · simp [optFieldIf, hs]
    · simp [optFieldIf, hs, List.filter_cons, hk]

lemma filter_authorField (a : Option (List String)) :
    (authorField a).filter (fun p => !decide (p.1 ∈ reservedKeys)) = [] := by
  have hc : "author" ∈ reservedKeys := by decide
  cases a with
  | none => rfl
  | some l =>
    by_cases hl : l = []
    · simp [authorField, hl]
    · simp [authorField, hl, List.filter_cons, hc]

lemma forall_contains_of_keys (keys : List String) (vals : List (String × Option String))
    (hkeys : vals.map Prod.fst = keys)
    (h : ∀ s ∈ keys, s ∈ reservedKeys) :
    ∀ kv ∈ vals, kv.1 ∈ reservedKeys := by
  intro kv hkv
  exact h kv.1 (by rw [← hkeys]; exact List.mem_map.mpr ⟨kv, hkv, rfl⟩)

lemma filter_segChain (l : List (String × Option String)) (tail : PyEntry)
    (hl : ∀ kv ∈ l, kv.1 ∈ reservedKeys) :
    (segChain l tail).filter (fun p => !decide (p.1 ∈ reservedKeys)) =
      tail.filter (fun p => !decide (p.1 ∈ reservedKeys)) := by
  induction l with
  | nil => rfl
  | cons kv l ih =>
    rw [show segChain (kv :: l) tail = optFieldIf kv.1 kv.2 ++ segChain l tail from rfl,
      List.filter_append, filter_optFieldIf kv.1 kv.2 (hl kv (List.mem_cons_self _ _)),
      List.nil_append]
    exact ih (fun x hx => hl x (List.mem_cons_of_mem _ hx))

lemma filter_raw_eq_self (raw : List (String × String))
    (h : ∀ p ∈ raw, p.1 ∉ reservedKeys) :
    raw.filter (fun p => !decide (p.1 ∈ reservedKeys)) = raw := by
  apply List.filter_eq_self.mpr
  intro p hp
  simpa using h p hp

lemma raw_fields_roundtrip (e : BibEntry) (hraw : rawFieldsOK e.raw_fields) :
    (bib_entry_to_dict e).filter (fun p => !decide (p.1 ∈ reservedKeys)) =
      e.raw_fields := by
  have hc1 : "ENTRYTYPE" ∈ reservedKeys := by decide
  have hc2 : "ID" ∈ reservedKeys := by decide
  have hc3 : "title" ∈ reservedKeys := by decide
  have hseg : ∀ kv ∈ segs e, kv.1 ∈ reservedKeys :=
    forall_contains_of_keys ["year", "doi", "eprint", "url", "abstract", "booktitle",
      "journal", "volume", "pages", "publisher"] _ rfl (by decide)
  rw [bib_entry_to_dict_flat e hraw]
  simp [List.filter_cons, hc1, hc2, hc3, List.filter_append, filter_authorField,
    filter_segChain (segs e) e.raw_fields hseg, filter_raw_eq_self e.raw_fields hraw.1]

/-- Author lists that serialization can reproduce: non-empty, with a
non-empty joined form that splits and strips back to the same names. -/
def authorsOK : Option (List String) → Bool
  | none => true
  | some l =>
    (!l.isEmpty) && (pyJoinAnd l != "") &&
      ((pySplitAnd (pyJoinAnd l)).map pyStrip == l)

/-- A record whose only populated optional field is `venue`. -/
def venueRecord : BibEntry :=
  { entry_type := "inproceedings", cite_key := "k1", title := "T1",
    venue := some "NeurIPS" }

/-- Counterexample to C4 as stated: the serializer never writes `venue`
and the parser never reads it, so the round trip of a record with a
populated `venue` is not field-for-field equal — `venue` is dropped. -/
theorem roundtrip_drops_venue :
    venueRecord.venue = some "NeurIPS" ∧
    (roundtrip_records [venueRecord]).map (fun r => r.venue) = [none] ∧
    roundtrip_records [venueRecord] ≠ [venueRecord] := by
  decide

/-- C4 (amended): for every serialization-safe record — raw keys unique
and distinct from the recognized field names, optional fields never the
empty string, author lists absent or non-empty with names that survive
the " and " join/split/strip — parsing the serialization reproduces the
record field for field, except `venue`, which is always dropped. -/
theorem roundtrip_preserves_fields (e : BibEntry)
    (hraw : rawFieldsOK e.raw_fields) (hauth : authorsOK e.authors = true)
    (hyear : e.year ≠ some "") (hdoi : e.doi ≠ some "")
    (harxiv : e.arxiv_id ≠ some "") (hurl : e.url ≠ some "")
    (habstract : e.abstract ≠ some "") (hbooktitle : e.booktitle ≠ some "")
    (hjournal : e.journal ≠ some "") (hvolume : e.volume ≠ some "")
    (hpages : e.pages ≠ some "") (hpublisher : e.publisher ≠ some "") :
    roundtrip_records [e] = [{ e with venue := none }] := by
  have hkey : dict_to_bib_entry (bib_entry_to_dict e) = { e with venue := none } := by
    have hep := pyGet_dict_eprint e hraw harxiv
    have har := pyGet_dict_arxiv_key e hraw
    simp only [dict_to_bib_entry, BibEntry.mk.injEq]
    refine ⟨?_, ?_, ?_, ?_, ?_, trivial, ?_, ?_, ?_, ?_, ?_, ?_, ?_, ?_, ?_, ?_⟩
    · simp [pyGetD, pyGet_dict_ENTRYTYPE e hraw]
    · simp [pyGetD, pyGet_dict_ID e hraw]
    · simp [pyGetD, pyGet_dict_title e hraw]
    · rw [pyGet_dict_author e hraw]
      cases ha : e.authors with
      | none => rfl
      | some l =>
        by_cases hl : l = []
        · rw [ha] at hauth
          simp [authorsOK, hl] at hauth
        · rw [ha] at hauth
          simp only [authorsOK, Bool.and_eq_true, bne_iff_ne, ne_eq,
            Bool.not_eq_true', List.isEmpty_eq_false, beq_iff_eq] at hauth
          obtain ⟨⟨h1, h2⟩, h3⟩ := hauth
          simp [parse_authors, hl, h2, h3]
    · exact pyGet_dict_year e hraw hyear
    · exact pyGet_dict_doi e hraw hdoi
    · simp only [extract_arxiv_id, pyMem, hep, har]
      cases hax : e.arxiv_id with
      | none => simp
      | some s => simp
    · exact pyGet_dict_url e hraw hurl
    · exact pyGet_dict_abstract e hraw habstract
    · exact pyGet_dict_booktitle e hraw hbooktitle
    · exact pyGet_dict_journal e hraw hjournal
    · exact pyGet_dict_volume e hraw hvolume
    · exact pyGet_dict_pages e hraw hpages
    · exact pyGet_dict_publisher e hraw hpublisher
    · simpa using raw_fields_roundtrip e hraw
  simp [roundtrip_records, hkey]

/-- A fully populated serialization-safe record. -/
def fullRecord : BibEntry :=
  { entry_type := "article", cite_key := "smith2023", title := "A Great Paper",
    authors := some ["John Smith", "Jane Doe"], year := some "2023",
    doi := some "10.1234/x", arxiv_id := some "2401.00001",
    url := some "http://keep", abstract := some "An abstract",
    booktitle := some "Proc", journal := some "Nature", volume := some "123",
    pages := some "1-10", publisher := some "Pub",
    raw_fields := [("keywords", "testing")] }

/-- Witness for the amended C4 at a fully populated concrete record. -/
theorem roundtrip_preserves_fields_witness :
    roundtrip_records [fullRecord] = [{ fullRecord with venue := none }] :=
  roundtrip_preserves_fields fullRecord (by decide) (by decide) (by decide)
    (by decide) (by decide) (by decide) (by decide) (by decide) (by decide)
    (by decide) (by decide) (by decide)

lemma map_fst_optFieldIf (key : String) (o : Option String) :
    (optFieldIf key o).map Prod.fst = if candWinsStr o then [key] else [] := by
  cases o with
  | none => rfl
  | some s => by_cases hs : s = "" <;> simp [optFieldIf, candWinsStr, hs]

lemma map_fst_authorField (a : Option (List String)) :
    (authorField a).map Prod.fst = if candWinsList a then ["author"] else [] := by
  cases a with
  | none => rfl
  | some l => by_cases hl : l = [] <;> simp [authorField, candWinsList, hl]

/-- C5: for every record with well-formed raw fields, the serialized field
mapping lists keys in exactly this order: entry type, citation key and
title first, then author, year, doi, eprint (the stored arXiv id), url,
abstract, booktitle, journal, volume, pages, publisher — each only when
the field is set (truthy) — then the raw fields in their original
insertion order. -/
theorem serialized_field_order (e : BibEntry) (hraw : rawFieldsOK e.raw_fields) :
    (bib_entry_to_dict e).map Prod.fst =
      ["ENTRYTYPE", "ID", "title"] ++
      (if candWinsList e.authors then ["author"] else []) ++
      (if candWinsStr e.year then ["year"] else []) ++
      (if candWinsStr e.doi then ["doi"] else []) ++
      (if candWinsStr e.arxiv_id then ["eprint"] else []) ++
      (if candWinsStr e.url then ["url"] else []) ++
      (if candWinsStr e.abstract then ["abstract"] else []) ++
      (if candWinsStr e.booktitle then ["booktitle"] else []) ++
      (if candWinsStr e.journal then ["journal"] else []) ++
      (if candWinsStr e.volume then ["volume"] else []) ++
      (if candWinsStr e.pages then ["pages"] else []) ++
      (if candWinsStr e.publisher then ["publisher"] else []) ++
      e.raw_fields.map Prod.fst := by
  simp only [bib_entry_to_dict]
  rw [pyUpdate_append e.raw_fields (knownFields e)
    (knownFields_disjoint_raw e hraw) hraw.2]
  simp [knownFields, List.map_append, map_fst_authorField, map_fst_optFieldIf,
    List.append_assoc]

/-- Witness for C5: the concrete full record serializes with every known
key in order, then the raw key. -/
theorem serialized_field_order_witness :
    (bib_entry_to_dict fullRecord).map Prod.fst =
      ["ENTRYTYPE", "ID", "title", "author", "year", "doi", "eprint", "url",
       "abstract", "booktitle", "journal", "volume", "pages", "publisher",
       "keywords"] := by
  rw [serialized_field_order fullRecord (by decide)]
  decide
